import Mathlib

/-!
Verification of the s3-manager repository: a shallow embedding in Lean 4 of
the virtual-filesystem projection layer (`src/app/s3/__init__.py`), the
authorization gate (`src/app/auth/__init__.py`) and the static configuration
(`src/config.py`), together with theorems settling the frozen claims about
the natural-language specification.

Conventions of the embedding:
* Python strings are modelled as `String`; the handful of Python string
  primitives the code uses (`strip('/')`, `split('/')`, `split('/', 1)`,
  `'/'.join`, `endswith`, `startswith`, `replace(old, new, 1)`, `lower`)
  are defined below over `List Char` and lifted.
* The S3 service is a `Store`: a list of named buckets, each a list of
  objects (key and body).  `list_objects_v2` pagination is modelled with a
  page size of 1000 and a numeric continuation token (an offset), which is
  the observable behaviour the handlers rely on.
* `ClientError` raised by boto3 is modelled with `Except String`; a raised
  error that reaches a handler's `except ClientError` block becomes the
  handler's HTTP 500 response, with the store left in whatever state the
  already-performed calls produced.
* Handlers are pure functions from the request payload and the current
  store to a response record plus the resulting store.
-/

namespace S3Manager

/-! ## Python string primitives -/

/-- Python `s.strip(c)` on a single character: drop every leading and
trailing occurrence of `c`. -/
def stripCharL (c : Char) (l : List Char) : List Char :=
  ((l.dropWhile (· == c)).reverse.dropWhile (· == c)).reverse

/-- Python `s.strip('/')` lifted to `String`. -/
def pyStrip (c : Char) (s : String) : String :=
  String.mk (stripCharL c s.toList)

/-- Python `s.rstrip(c)` on a single character. -/
def pyRstrip (c : Char) (s : String) : String :=
  String.mk ((s.toList.reverse.dropWhile (· == c)).reverse)

/-- Python `s.split(c)`: split at every occurrence of `c`, keeping empty
pieces; the result is never empty (`"".split(c) == [""]`). -/
def splitCharL (c : Char) : List Char → List (List Char)
  | [] => [[]]
  | x :: xs =>
    let r := splitCharL c xs
    if x == c then [] :: r
    else
      match r with
      | [] => [[x]]
      | h :: t => (x :: h) :: t

/-- Python `s.split(c)` lifted to `String`. -/
def pySplit (c : Char) (s : String) : List String :=
  (splitCharL c s.toList).map String.mk

/-- Python `c.join(parts)`. -/
def joinCharL (c : Char) : List (List Char) → List Char
  | [] => []
  | [x] => x
  | x :: xs => x ++ c :: joinCharL c xs

/-- Python `'/'.join(parts)` lifted to `String`. -/
def pyJoin (c : Char) (parts : List String) : String :=
  String.mk (joinCharL c (parts.map String.toList))

/-- Python `s.split(c, 1)`: the first segment and, when a separator is
present, the remainder of the string. -/
def pySplitFirst (c : Char) (s : String) : String × Option String :=
  match pySplit c s with
  | [] => (s, none)
  | [x] => (x, none)
  | x :: rest => (x, some (pyJoin c rest))

/-- Python `s.endswith(t)`. -/
def pyEndsWith (s t : String) : Bool :=
  t.toList.isSuffixOf s.toList

/-- Python `s.startswith(t)`. -/
def pyStartsWith (s t : String) : Bool :=
  t.toList.isPrefixOf s.toList

/-- Python `s.replace(old, new, 1)` over lists: replace the first
occurrence of `pat` (matching Python, an empty pattern matches at the
start). -/
def replaceFirstL (pat rep : List Char) : List Char → List Char
  | [] => if pat.isEmpty then rep else []
  | x :: xs =>
    if pat.isPrefixOf (x :: xs) then rep ++ (x :: xs).drop pat.length
    else x :: replaceFirstL pat rep xs

/-- Python `s.replace(old, new, 1)` lifted to `String`. -/
def pyReplaceFirst (s pat rep : String) : String :=
  String.mk (replaceFirstL pat.toList rep.toList s.toList)

/-- Python `s.lower()` (ASCII case folding, which is all the handler's
sort key relies on). -/
def pyLower (s : String) : String :=
  String.mk (s.toList.map Char.toLower)

/-- Python truthiness of a string: non-empty. -/
def pyTruthy (s : String) : Bool := !s.isEmpty

/-! ## `detect_mime_type` (src/app/s3/__init__.py lines 24-51)

The two lookups it delegates to are environment facts, so they are
parameters: `magicSniff` models `magic.Magic(mime=True).from_buffer`
(`none` models a raised exception) and `mimeGuess` models
`mimetypes.guess_type` (`none` models a `None` guess). -/

/-- The early-return `python-magic` block of `detect_mime_type`: `some d`
exactly when the guard `if file_content:` passes, the sniff does not
raise, and the sniffed type is truthy and not
`'application/octet-stream'`. -/
def sniffResult (magicSniff : List Char → Option String)
    (file_content : Option (List Char)) : Option String :=
  match file_content with
  | none => none
  | some content =>
    if content.isEmpty then none
    else
      match magicSniff content with
      | none => none
      | some d =>
        if pyTruthy d && d != "application/octet-stream" then some d else none

def detect_mime_type (magicSniff : List Char → Option String)
    (mimeGuess : String → Option String)
    (filename : String) (file_content : Option (List Char)) : String :=
  match sniffResult magicSniff file_content with
  | some d => d
  | none =>
    match mimeGuess filename with
    | some g => if pyTruthy g then g else "application/octet-stream"
    | none => "application/octet-stream"

/-! ## Role → permission mapping (src/app/auth/__init__.py lines 102-117
and src/config.py lines 50-57) -/

/-- Python `role in role_permissions` / `role_permissions[role]` over the
configuration dictionary, modelled as an association list. -/
def lookupRole (m : List (String × List String)) (r : String) : Option (List String) :=
  (m.find? (fun e => e.1 == r)).map (fun e => e.2)

/-- `map_roles_to_permissions` from `src/app/auth/__init__.py`: union the
permission sets of the claimed roles found in the map (a Python `set`,
modelled as `Finset String`); if the union is empty, add the default
role's permissions when the default role is in the map. -/
def map_roles_to_permissions (role_permissions : List (String × List String))
    (default_role : String) (roles : List String) : Finset String :=
  let permissions : Finset String :=
    roles.foldl (fun acc role =>
      match lookupRole role_permissions role with
      | some ps => acc ∪ ps.toFinset
      | none => acc) ∅
  if permissions = ∅ then
    match lookupRole role_permissions default_role with
    | some ps => ps.toFinset
    | none => ∅
  else permissions

/-- `Config.ROLE_PERMISSIONS` from `src/config.py`. -/
def ROLE_PERMISSIONS : List (String × List String) :=
  [("S3-Viewer", ["view"]),
   ("S3-Editor", ["view", "write"]),
   ("S3-Admin", ["view", "write", "delete"])]

/-- `Config.DEFAULT_ROLE` from `src/config.py` (its default value). -/
def DEFAULT_ROLE : String := "S3-Viewer"

/-! ## The object store

A `Store` is the S3-compatible service state: a list of named buckets,
each holding a list of objects.  Response fields that no claim refers to
(icons, sizes, timestamps, etags, presigned URLs) are projected away from
the embedded handler results. -/

structure Obj where
  key : String
  body : String
  deriving DecidableEq

structure Bucket where
  name : String
  objects : List Obj
  deriving DecidableEq

abbrev Store := List Bucket

/-- The service's bucket lookup; a call against a missing bucket raises
`ClientError` in boto3, modelled by the `none` case at each use site. -/
def findBucket (s : Store) (n : String) : Option Bucket :=
  s.find? (fun b => b.name == n)

/-- Replace the contents of the named bucket. -/
def updateBucket (s : Store) (n : String) (f : Bucket → Bucket) : Store :=
  s.map (fun b => if b.name == n then f b else b)

/-- The keys of the bucket's objects whose key starts with `pfx`
(the `Prefix=` filter of `list_objects_v2`). -/
def Bucket.keysWith (b : Bucket) (pfx : String) : List String :=
  (b.objects.filter (fun o => pyStartsWith o.key pfx)).map (fun o => o.key)

/-- `list_objects_v2` default `MaxKeys`, also the `delete_objects` batch cap. -/
def MAX_KEYS : Nat := 1000

structure ListPage where
  contents : List String
  isTruncated : Bool
  nextToken : Option Nat

/-- One page of `list_objects_v2(Bucket, Prefix, ContinuationToken)`: at
most `MAX_KEYS` keys, a truncation flag, and the continuation token for
the next page (modelled as an offset into the matching keys). -/
def listObjectsV2 (b : Bucket) (pfx : String) (tok : Nat) : ListPage :=
  let ks := b.keysWith pfx
  let truncated := decide (tok + MAX_KEYS < ks.length)
  { contents := (ks.drop tok).take MAX_KEYS
    isTruncated := truncated
    nextToken := if truncated then some (tok + MAX_KEYS) else none }

/-- `put_object`: overwrite the body under an existing key, else append a
new object. -/
def Bucket.putObject (b : Bucket) (k body : String) : Bucket :=
  if b.objects.any (fun o => o.key == k) then
    { b with objects := b.objects.map (fun o => if o.key == k then { o with body := body } else o) }
  else
    { b with objects := b.objects ++ [{ key := k, body := body }] }

/-- `delete_objects` on a batch of keys (also `delete_object` via a
singleton batch); deleting an absent key succeeds, as in S3. -/
def Bucket.deleteKeys (b : Bucket) (ks : List String) : Bucket :=
  { b with objects := b.objects.filter (fun o => !(ks.contains o.key)) }

/-- `copy_object` within one bucket; raises (`.error`) when the source key
does not exist. -/
def Bucket.copyObject (b : Bucket) (src dst : String) : Except String Bucket :=
  match b.objects.find? (fun o => o.key == src) with
  | none => .error "NoSuchKey"
  | some o => .ok (b.putObject dst o.body)

/-- The `while True` pagination loop shared by `delete_folder` and
`rename_item`: collect page contents, stop when the page is not
truncated, else continue from the returned token.  `fuel` bounds the
recursion; callers pass enough for every page. -/
def collectKeysLoop (b : Bucket) (pfx : String) : Nat → Nat → List String
  | 0, _ => []
  | fuel + 1, tok =>
    let page := listObjectsV2 b pfx tok
    if page.isTruncated then
      match page.nextToken with
      | some t => page.contents ++ collectKeysLoop b pfx fuel t
      | none => page.contents
    else page.contents

/-- All keys under a prefix, as produced by the handlers' pagination loop. -/
def listAllKeys (b : Bucket) (pfx : String) : List String :=
  collectKeysLoop b pfx (b.objects.length + 1) 0

/-- `for i in range(0, len(l), 1000): batch = l[i:i+1000]`. -/
def chunks1000 (l : List String) : List (List String) :=
  if l.isEmpty then [] else l.take MAX_KEYS :: chunks1000 (l.drop MAX_KEYS)
termination_by l.length
decreasing_by
  rename_i h
  simp only [List.isEmpty_eq_true] at h
  have hl : 0 < l.length := List.length_pos.mpr h
  simp only [List.length_drop, MAX_KEYS]
  omega

/-! ## `delete_folder` (src/app/s3/__init__.py lines 498-574) -/

structure DeleteFolderResult where
  status : Nat
  deletedCount : Option Nat
  /-- The `delete_objects` batches issued, in order. -/
  batches : List (List String)
  store : Store

def delete_folder (s : Store) (path : String) : DeleteFolderResult :=
  let virtual_path := pyStrip '/' path
  if !(pyTruthy virtual_path) then ⟨400, none, [], s⟩
  else
    match pySplitFirst '/' virtual_path with
    | (_, none) => ⟨400, none, [], s⟩
    | (bucket_name, some rest) =>
      let pfx := rest ++ "/"
      match findBucket s bucket_name with
      | none => ⟨500, none, [], s⟩
      | some b =>
        let objects_to_delete := listAllKeys b pfx
        if objects_to_delete.isEmpty then ⟨200, none, [], s⟩
        else
          let batches := chunks1000 objects_to_delete
          let final := batches.foldl
            (fun (acc : Bucket × Nat) batch => (acc.1.deleteKeys batch, acc.2 + batch.length))
            (b, 0)
          ⟨200, some final.2, batches, updateBucket s bucket_name (fun _ => final.1)⟩

/-! ## `rename_item` (src/app/s3/__init__.py lines 576-683) -/

structure RenameResult where
  status : Nat
  itemsRenamed : Option Nat
  store : Store

/-- The folder branch's copy-then-delete loop over the listed keys; a
raised `ClientError` aborts the loop, leaving the partially mutated
bucket (`.error` case). -/
def renameCopyDeleteLoop (pfx new_key : String) : Bucket → List String → Except Bucket Bucket
  | b, [] => .ok b
  | b, obj_key :: rest =>
    let new_obj_key := pyReplaceFirst obj_key pfx new_key
    match b.copyObject obj_key new_obj_key with
    | .error _ => .error b
    | .ok b2 => renameCopyDeleteLoop pfx new_key (b2.deleteKeys [obj_key]) rest

def rename_item (s : Store) (oldPath newName : String) : RenameResult :=
  let old_virtual_path := pyStrip '/' oldPath
  let new_name := pyStrip '/' newName
  if !(pyTruthy old_virtual_path) || !(pyTruthy new_name) then ⟨400, none, s⟩
  else
    let old_parts := pySplit '/' old_virtual_path
    let bucket_name := old_parts.headD ""
    if old_parts.length < 2 then ⟨400, none, s⟩
    else
      let old_key := pyJoin '/' (old_parts.drop 1)
      let new_key := pyJoin '/' ((old_parts.drop 1).dropLast ++ [new_name])
      match findBucket s bucket_name with
      | none => ⟨500, none, s⟩
      | some b =>
        let is_folder := pyEndsWith old_key "/"
        if is_folder then
          let new_key2 := new_key ++ "/"
          let pfx := old_key
          let objects_to_rename := listAllKeys b pfx
          match renameCopyDeleteLoop pfx new_key2 b objects_to_rename with
          | .error partialB => ⟨500, none, updateBucket s bucket_name (fun _ => partialB)⟩
          | .ok b2 =>
            ⟨200, some objects_to_rename.length, updateBucket s bucket_name (fun _ => b2)⟩
        else
          match b.copyObject old_key new_key with
          | .error _ => ⟨500, none, s⟩
          | .ok b2 =>
            ⟨200, none, updateBucket s bucket_name (fun _ => b2.deleteKeys [old_key])⟩

/-! ## `upload_to_path` (src/app/s3/__init__.py lines 359-446)

`putFails` parametrises which `put_object` calls the object store rejects
with `ClientError` (network or service failure); `magicSniff` and
`mimeGuess` are the MIME environment as in `detect_mime_type`. -/

structure UFile where
  filename : String
  content : String
  deriving DecidableEq

structure UploadedInfo where
  filename : String
  path : String
  contentType : String
  size : Nat
  deriving DecidableEq

structure UploadResult where
  status : Nat
  count : Option Nat
  files : List UploadedInfo
  store : Store

/-- The per-file loop of `upload_to_path`.  A raised `ClientError`
escapes the loop (`.error`), keeping the puts already performed. -/
def uploadLoop (magicSniff : List Char → Option String) (mimeGuess : String → Option String)
    (putFails : String → Bool) (bucket_name pfx : String) (relative_paths : List String) :
    Store → Nat → Nat → List UploadedInfo → List UFile →
    Except Store (Store × Nat × List UploadedInfo)
  | st, _, count, infos, [] => .ok (st, count, infos)
  | st, idx, count, infos, file :: restFiles =>
    if !(pyTruthy file.filename) then
      uploadLoop magicSniff mimeGuess putFails bucket_name pfx relative_paths
        st (idx + 1) count infos restFiles
    else
      let object_key :=
        if !relative_paths.isEmpty && idx < relative_paths.length
            && pyTruthy (relative_paths.getD idx "") then
          pfx ++ relative_paths.getD idx ""
        else pfx ++ file.filename
      let content_type := detect_mime_type magicSniff mimeGuess file.filename (some file.content.toList)
      if putFails object_key then .error st
      else
        let st2 := updateBucket st bucket_name (fun b => b.putObject object_key file.content)
        uploadLoop magicSniff mimeGuess putFails bucket_name pfx relative_paths
          st2 (idx + 1) (count + 1)
          (infos ++ [{ filename := file.filename,
                       path := bucket_name ++ "/" ++ object_key,
                       contentType := content_type,
                       size := file.content.length }])
          restFiles

def upload_to_path (magicSniff : List Char → Option String) (mimeGuess : String → Option String)
    (putFails : String → Bool) (s : Store)
    (uploaded_files : List UFile) (path : String) (relative_paths : List String) : UploadResult :=
  if uploaded_files.isEmpty then ⟨400, none, [], s⟩
  else
    let virtual_path := pyStrip '/' path
    if !(pyTruthy virtual_path) then ⟨400, none, [], s⟩
    else
      let (bucket_name, restOpt) := pySplitFirst '/' virtual_path
      let pfx := match restOpt with
        | some rest => rest ++ "/"
        | none => ""
      match findBucket s bucket_name with
      | none => ⟨500, none, [], s⟩
      | some _ =>
        match uploadLoop magicSniff mimeGuess putFails bucket_name pfx relative_paths
            s 0 0 [] uploaded_files with
        | .error partialStore => ⟨500, none, [], partialStore⟩
        | .ok (st2, uploaded_count, infos) =>
          if uploaded_count == 0 then ⟨400, none, [], st2⟩
          else ⟨200, some uploaded_count, infos, st2⟩

/-! ## `create_folder` (src/app/s3/__init__.py lines 448-496) -/

structure CreateFolderResult where
  status : Nat
  path : Option String
  store : Store

def create_folder (s : Store) (path folderName : String) : CreateFolderResult :=
  let virtual_path := pyStrip '/' path
  let folder_name := pyStrip '/' folderName
  if !(pyTruthy folder_name) then ⟨400, none, s⟩
  else if !(pyTruthy virtual_path) then ⟨400, none, s⟩
  else
    let (bucket_name, restOpt) := pySplitFirst '/' virtual_path
    let pfx := match restOpt with
      | some rest => rest ++ "/"
      | none => ""
    let folder_key := pfx ++ folder_name ++ "/"
    match findBucket s bucket_name with
    | none => ⟨500, none, s⟩
    | some _ =>
      ⟨200, some (bucket_name ++ "/" ++ folder_key),
        updateBucket s bucket_name (fun b => b.putObject folder_key "")⟩

/-! ## `delete_multiple` (src/app/s3/__init__.py lines 685-755) -/

structure DMResult where
  status : Nat
  deletedCount : Nat
  errors : List (String × String)
  store : Store

/-- Body of the per-path `for` loop of `delete_multiple` (each iteration
has its own `try/except ClientError` that records an error and
continues). -/
def deleteOnePath (acc : Store × Nat × List (String × String)) (vp0 : String) :
    Store × Nat × List (String × String) :=
  let st := acc.1
  let cnt := acc.2.1
  let errs := acc.2.2
  let virtual_path := pyStrip '/' vp0
  let path_parts := pySplit '/' virtual_path
  let bucket_name := path_parts.headD ""
  if path_parts.length < 2 then
    (st, cnt, errs ++ [(virtual_path, "Cannot delete buckets")])
  else
    let object_key := pyJoin '/' (path_parts.drop 1)
    match findBucket st bucket_name with
    | none => (st, cnt, errs ++ [(virtual_path, "NoSuchBucket")])
    | some b =>
      if pyEndsWith object_key "/" then
        let pfx := object_key
        let objects_to_delete := (listObjectsV2 b pfx 0).contents
        if objects_to_delete.isEmpty then (st, cnt, errs)
        else
          (updateBucket st bucket_name (fun bb => bb.deleteKeys objects_to_delete),
           cnt + objects_to_delete.length, errs)
      else
        (updateBucket st bucket_name (fun bb => bb.deleteKeys [object_key]), cnt + 1, errs)

def delete_multiple (s : Store) (paths : List String) : DMResult :=
  if paths.isEmpty then ⟨400, 0, [], s⟩
  else
    let final := paths.foldl deleteOnePath (s, 0, [])
    ⟨200, final.2.1, final.2.2, final.1⟩

/-! ## `browse_filesystem` (src/app/s3/__init__.py lines 208-319) -/

structure BItem where
  name : String
  type : String
  path : String
  deriving DecidableEq

structure BrowseResult where
  status : Nat
  path : String
  breadcrumbs : List (String × String)
  items : List BItem

/-- Position of the first `'/'` in a character list. -/
def firstSlashIdx : List Char → Option Nat
  | [] => none
  | c :: rest => if c == '/' then some 0 else (firstSlashIdx rest).map (· + 1)

/-- The common prefix a key contributes under a delimited (`Delimiter='/'`)
listing with the given prefix, when it contributes one: the key up to and
including the first `'/'` after the prefix. -/
def keyCommonPfx (pfx key : String) : Option String :=
  match firstSlashIdx (key.toList.drop pfx.toList.length) with
  | some i => some (String.mk (key.toList.take (pfx.toList.length + i + 1)))
  | none => none

/-- `list_objects_v2(..., Delimiter='/')`: the `CommonPrefixes` (distinct,
first-contribution order) and the `Contents` (matching keys with no `'/'`
past the prefix). -/
def delimitedList (b : Bucket) (pfx : String) : List String × List Obj :=
  let matching := b.objects.filter (fun o => pyStartsWith o.key pfx)
  ((matching.filterMap (fun o => keyCommonPfx pfx o.key)).dedup,
   matching.filter (fun o => keyCommonPfx pfx o.key == none))

/-- Python `folder_prefix[len(prefix):-1]`. -/
def sliceFromDropLast (n : Nat) (s : String) : String :=
  String.mk ((s.toList.drop n).dropLast)

/-- Code-point lexicographic `≤` on strings as lists of characters
(Python string comparison). -/
def strLeB : List Char → List Char → Bool
  | [], _ => true
  | _ :: _, [] => false
  | c :: cs, d :: ds =>
    if c.toNat < d.toNat then true
    else if c.toNat == d.toNat then strLeB cs ds
    else false

/-- The comparison realised by
`sorted(items, key=lambda x: (x['type'] == 'file', x['name'].lower()))`:
lexicographic on the pair of the is-file flag (`False < True`) and the
lower-cased name. -/
def itemLE (x y : BItem) : Bool :=
  let fx := x.type == "file"
  let fy := y.type == "file"
  (!fx && fy) || (fx == fy && strLeB (pyLower x.name).toList (pyLower y.name).toList)

/-- The breadcrumb loop: accumulate a growing path over the segments. -/
def breadcrumbTrail (parts : List String) : List (String × String) :=
  (parts.foldl (fun (acc : String × List (String × String)) part =>
    let current := if acc.1.isEmpty then part else acc.1 ++ "/" ++ part
    (current, acc.2 ++ [(part, current)])) ("", [])).2

def browse_filesystem (s : Store) (virtual_path0 : String) : BrowseResult :=
  let virtual_path := pyStrip '/' virtual_path0
  if !(pyTruthy virtual_path) then
    { status := 200, path := "/",
      breadcrumbs := [("Home", "")],
      items := s.map (fun b => { name := b.name, type := "directory", path := b.name }) }
  else
    let (bucket_name, restOpt) := pySplitFirst '/' virtual_path
    let pfx := match restOpt with
      | some rest => rest ++ "/"
      | none => ""
    match findBucket s bucket_name with
    | none => { status := 500, path := "/" ++ virtual_path, breadcrumbs := [], items := [] }
    | some b =>
      let listed := delimitedList b pfx
      let dirItems := listed.1.map (fun folderPfx =>
        { name := sliceFromDropLast pfx.toList.length folderPfx,
          type := "directory",
          path := bucket_name ++ "/" ++ pyRstrip '/' folderPfx : BItem })
      let fileItems := (listed.2.filter (fun o => o.key != pfx)).map (fun o =>
        { name := String.mk (o.key.toList.drop pfx.toList.length),
          type := "file",
          path := bucket_name ++ "/" ++ o.key : BItem })
      { status := 200, path := "/" ++ virtual_path,
        breadcrumbs := ("Home", "") :: breadcrumbTrail (pySplit '/' virtual_path),
        items := (dirItems ++ fileItems).mergeSort itemLE }

/-! ## Authorization gate (src/app/auth/__init__.py lines 67-100) and the
decorated routes (src/app/s3/__init__.py) -/

/-- The `session['user']` dictionary stored at login. -/
structure UserSession where
  name : String
  email : String
  roles : List String
  permissions : List String
  deriving DecidableEq

/-- The `permission_required(permission)` decorator around a handler
(outside local dev mode): missing session user → 401, permission not in
`session['user']['permissions']` → 403, else run the handler. -/
def permission_required (permission : String) (user : Option UserSession)
    (handler : Store → Nat × Store) (s : Store) : Nat × Store :=
  match user with
  | none => (401, s)
  | some u =>
    if u.permissions.contains permission then handler s
    else (403, s)

/-- The requests the decorated operation routes accept. -/
inductive OpRequest where
  | browse (path : String)
  | upload (files : List UFile) (path : String) (relativePaths : List String)
  | createFolder (path folderName : String)
  | renameOp (oldPath newName : String)
  | deleteFolderOp (path : String)
  | deleteMultipleOp (paths : List String)

/-- The permission each route's `@permission_required(...)` decorator
names in the source. -/
def required_permission : OpRequest → String
  | .browse _ => "view"
  | .upload .. => "write"
  | .createFolder .. => "write"
  | .renameOp .. => "write"
  | .deleteFolderOp _ => "delete"
  | .deleteMultipleOp _ => "delete"

/-- The undecorated handler bodies, projected to (HTTP status, resulting
store). -/
def runHandler (magicSniff : List Char → Option String) (mimeGuess : String → Option String)
    (putFails : String → Bool) (op : OpRequest) (s : Store) : Nat × Store :=
  match op with
  | .browse p => ((browse_filesystem s p).status, s)
  | .upload files p rels =>
    let r := upload_to_path magicSniff mimeGuess putFails s files p rels
    (r.status, r.store)
  | .createFolder p n =>
    let r := create_folder s p n
    (r.status, r.store)
  | .renameOp o n =>
    let r := rename_item s o n
    (r.status, r.store)
  | .deleteFolderOp p =>
    let r := delete_folder s p
    (r.status, r.store)
  | .deleteMultipleOp ps =>
    let r := delete_multiple s ps
    (r.status, r.store)

/-- A request as dispatched by Flask: the route's handler wrapped in its
`@permission_required` decorator. -/
def handle_request (magicSniff : List Char → Option String) (mimeGuess : String → Option String)
    (putFails : String → Bool) (user : Option UserSession) (op : OpRequest) (s : Store) :
    Nat × Store :=
  permission_required (required_permission op) user
    (runHandler magicSniff mimeGuess putFails op) s

/-! ## OIDC callback (src/app/auth/__init__.py lines 146-214) -/

/-- The Flask session fields the callback touches. -/
structure Session where
  oauth_state : Option String
  user : Option UserSession
  deriving DecidableEq

/-- The callback's request query parameters. -/
structure CallbackArgs where
  state : Option String
  code : Option String
  deriving DecidableEq

/-- `token_result` returned by `provider.exchange_code_for_token`. -/
structure TokenResult where
  access_token : Option String
  id_token : Option String

/-- `user_info` returned by `provider.get_user_info` (the fields the
callback reads). -/
structure UserInfoModel where
  name : Option String
  preferred_username : Option String
  email : Option String

/-- The provider SDK as the callback observes it; each call may raise
(`.error`), which the callback's `except` turns into a 500. -/
structure ProviderModel where
  exchange : String → Except String TokenResult
  userInfoResult : Except String UserInfoModel
  userRolesResult : Except String (List String)

/-- Python `a or b` on strings (left operand when truthy). -/
def pyOrS (a b : String) : String := if pyTruthy a then a else b

def callback (localDev : Bool) (provider : ProviderModel)
    (role_permissions : List (String × List String)) (default_role : String)
    (args : CallbackArgs) (sess : Session) : Nat × Session :=
  if localDev then (302, sess)
  else
    let state := args.state.getD ""
    if !(pyTruthy state) || (some state != sess.oauth_state) then (400, sess)
    else
      let sess1 : Session := { sess with oauth_state := none }
      match args.code with
      | none => (400, sess1)
      | some code =>
        match provider.exchange code with
        | .error _ => (500, sess1)
        | .ok _ =>
          match provider.userInfoResult with
          | .error _ => (500, sess1)
          | .ok user_info =>
            match provider.userRolesResult with
            | .error _ => (500, sess1)
            | .ok roles =>
              let permissions :=
                (map_roles_to_permissions role_permissions default_role roles).sort (· ≤ ·)
              let uname := pyOrS (user_info.name.getD "")
                (pyOrS (user_info.preferred_username.getD "") (user_info.email.getD "Unknown User"))
              let uemail := pyOrS (user_info.email.getD "") (user_info.preferred_username.getD "")
              (302, { sess1 with
                user := some { name := uname, email := uemail,
                               roles := roles, permissions := permissions } })

/-! ## Concrete instances used by witnesses and counterexamples -/

/-- A bucket holding a folder marker `docs/` and a file `docs/a.txt`. -/
def docsBucket : Bucket := ⟨"bucket", [⟨"docs/", ""⟩, ⟨"docs/a.txt", "A"⟩]⟩

def docsStore : Store := [docsBucket]

/-- A bucket for the `delete_folder` witness: two objects under `docs/`
and one outside. -/
def dfBucket : Bucket := ⟨"bkt", [⟨"docs/", ""⟩, ⟨"docs/a.txt", "A"⟩, ⟨"top.txt", "T"⟩]⟩

def dfStore : Store := [dfBucket]

/-- Two empty buckets listed by the store in non-alphabetical order. -/
def twoBucketStore : Store := [⟨"b", []⟩, ⟨"A", []⟩]

/-- A MIME environment whose sniff always fails and whose extension table
is empty. -/
def noSniff : List Char → Option String := fun _ => none

def noGuess : String → Option String := fun _ => none

/-- A sniffer that always reports `image/png`. -/
def pngSniff : List Char → Option String := fun _ => some "image/png"

/-- One empty bucket, the upload target of the C3 instance. -/
def emptyBktStore : Store := [⟨"bkt", []⟩]

/-- The object store rejects exactly the put of key `bad.txt`. -/
def failBadPut : String → Bool := fun k => k == "bad.txt"

def goodFile : UFile := ⟨"good.txt", "G"⟩

def badFile : UFile := ⟨"bad.txt", "B"⟩

/-- A provider model whose every call raises. -/
def failingProvider : ProviderModel := ⟨fun _ => .error "down", .error "down", .error "down"⟩

/-- A session mid-login: a stored CSRF state and an existing user entry. -/
def pendingSession : Session :=
  ⟨some "state-token", some ⟨"u", "u@example.com", ["S3-Admin"], ["view", "write", "delete"]⟩⟩

/-! ## Claim-side predicates -/

/-- The union of the configured permission sets of the claimed roles
found in the map (the spec's formula for the role mapping). -/
def matchedUnion (m : List (String × List String)) (roles : List String) : Finset String :=
  roles.toFinset.biUnion (fun r => ((lookupRole m r).getD []).toFinset)

/-- The spec's sortedness of a directory listing: no file entry precedes
a directory entry, and entries of equal type are in case-insensitive
ascending order by name. -/
def listingSortedClaim (items : List BItem) : Prop :=
  items.Pairwise (fun x y =>
    ¬(x.type = "file" ∧ y.type = "directory") ∧
    (x.type = y.type → strLeB (pyLower x.name).toList (pyLower y.name).toList = true))

/-! ## Theorems -/

/-- **C1.** A `rename(oldPath, newName)` request whose old key ends in `/`
is claimed to move every object under the old prefix and report the count.
The code first does `oldPath.strip('/')`, so the computed key never ends
in `/` and the folder branch cannot run: on a bucket holding `docs/` and
`docs/a.txt`, renaming `bucket/docs/` to `archive` takes the single-file
branch, whose `copy_object` of the non-existent key `docs` raises, giving
a 500 with no `itemsRenamed` and the store unchanged — no object is
moved and both objects stay under the old prefix. -/
theorem rename_folder_request_not_treated_as_folder :
    (rename_item docsStore "bucket/docs/" "archive").status = 500 ∧
    (rename_item docsStore "bucket/docs/" "archive").itemsRenamed = none ∧
    (rename_item docsStore "bucket/docs/" "archive").store = docsStore := by
  decide

/-- **C2.** A `deleteMultiple(paths)` entry naming a folder is claimed to
be classified as a folder, its objects listed across all pages and
batch-deleted, all counted.  The per-path `strip('/')` makes the
`endswith('/')` test unsatisfiable, so the folder path `bucket/docs/` is
handled as the single file `docs`: the response counts 1 deletion with no
error recorded, and every object under `docs/` survives. -/
theorem delete_multiple_folder_path_not_treated_as_folder :
    (delete_multiple docsStore ["bucket/docs/"]).status = 200 ∧
    (delete_multiple docsStore ["bucket/docs/"]).deletedCount = 1 ∧
    (delete_multiple docsStore ["bucket/docs/"]).errors = [] ∧
    (delete_multiple docsStore ["bucket/docs/"]).store = docsStore := by
  decide

/-- **C4.** `browse` on a path whose bucket does not exist is claimed to
fail with the taxonomy's `NotFound`, distinguished from a generic server
failure; the handler's `except ClientError` instead returns the generic
500 `Failed to browse filesystem` response. -/
theorem browse_missing_bucket_returns_generic_500 :
    (browse_filesystem ([] : Store) "nonexistent-bucket").status = 500 := by
  decide

/-- `pyTruthy ""` is falsy. -/
theorem pyTruthy_empty : pyTruthy "" = false := by decide

/-- `pyTruthy` unfolded to a disequality. -/
theorem pyTruthy_iff (s : String) : pyTruthy s = true ↔ s ≠ "" := by
  unfold pyTruthy
  cases hi : s.isEmpty with
  | true => simp [(String.isEmpty_iff s).mp hi]
  | false =>
    simp only [Bool.not_false, true_iff]
    intro he
    rw [he] at hi
    exact absurd hi (by decide)

/-- The early-return sniff block characterised: it produces a type
exactly when the content is present and non-empty, the sniff succeeds,
and the sniffed type is non-empty and not the octet-stream default. -/
theorem sniffResult_eq_some (ms : List Char → Option String)
    (fc : Option (List Char)) (d : String) :
    sniffResult ms fc = some d ↔
      ∃ c, fc = some c ∧ c ≠ [] ∧ ms c = some d ∧ d ≠ "" ∧
        d ≠ "application/octet-stream" := by
  constructor
  · intro h
    cases fc with
    | none => simp [sniffResult] at h
    | some c =>
      cases c with
      | nil => simp [sniffResult] at h
      | cons a as =>
        simp only [sniffResult, List.isEmpty_cons, Bool.false_eq_true, if_false] at h
        cases hm : ms (a :: as) with
        | none => rw [hm] at h; simp at h
        | some d0 =>
          rw [hm] at h
          simp only at h
          cases hcond : (pyTruthy d0 && d0 != "application/octet-stream") with
          | false => rw [hcond] at h; simp at h
          | true =>
            rw [hcond] at h
            simp only [if_true, Option.some.injEq] at h
            subst h
            obtain ⟨ht, hb⟩ : pyTruthy d0 = true ∧ (d0 != "application/octet-stream") = true := by
              simpa using hcond
            exact ⟨a :: as, rfl, by simp, hm, (pyTruthy_iff d0).mp ht, bne_iff_ne.mp hb⟩
  · rintro ⟨c, rfl, hc, hm, hne, hno⟩
    cases c with
    | nil => exact absurd rfl hc
    | cons a as =>
      have ht : pyTruthy d = true := (pyTruthy_iff d).mpr hne
      have hb : (d != "application/octet-stream") = true := bne_iff_ne.mpr hno
      simp only [sniffResult, List.isEmpty_cons, Bool.false_eq_true, if_false]
      rw [hm]
      simp [ht, hb]

/-- **C10.** MIME detection: the sniffed type is used exactly when the
content guard passes, the sniff succeeds and yields a truthy type other
than `application/octet-stream`; otherwise the extension guess is
returned when truthy; and the result is `application/octet-stream`
exactly when the sniff yields nothing usable and the extension lookup
yields nothing usable (no guess, an empty guess, or the octet-stream
guess itself). -/
theorem detect_mime_type_priority (ms : List Char → Option String)
    (mg : String → Option String) (fn : String) (fc : Option (List Char)) :
    (∀ d, sniffResult ms fc = some d ↔
      ∃ c, fc = some c ∧ c ≠ [] ∧ ms c = some d ∧ d ≠ "" ∧ d ≠ "application/octet-stream") ∧
    (∀ d, sniffResult ms fc = some d → detect_mime_type ms mg fn fc = d) ∧
    (sniffResult ms fc = none → ∀ g, mg fn = some g → g ≠ "" →
      detect_mime_type ms mg fn fc = g) ∧
    (detect_mime_type ms mg fn fc = "application/octet-stream" ↔
      (sniffResult ms fc = none ∧
        (mg fn = none ∨ mg fn = some "" ∨ mg fn = some "application/octet-stream"))) := by
  refine ⟨sniffResult_eq_some ms fc, ?_, ?_, ?_⟩
  · intro d h
    simp [detect_mime_type, h]
  · intro h g hg ht
    simp [detect_mime_type, h, hg, (pyTruthy_iff g).mpr ht]
  · constructor
    · intro h
      cases hs : sniffResult ms fc with
      | some d =>
        simp only [detect_mime_type, hs] at h
        subst h
        obtain ⟨_, _, _, _, _, hno⟩ := (sniffResult_eq_some ms fc _).mp hs
        exact absurd rfl hno
      | none =>
        refine ⟨rfl, ?_⟩
        simp only [detect_mime_type, hs] at h
        cases hmg : mg fn with
        | none => exact Or.inl rfl
        | some g =>
          simp only [hmg] at h
          by_cases ht : pyTruthy g
          · simp only [ht, if_true] at h
            subst h
            exact Or.inr (Or.inr rfl)
          · have hge : g = "" := by
              by_contra hne
              exact ht ((pyTruthy_iff g).mpr hne)
            subst hge
            exact Or.inr (Or.inl rfl)
    · rintro ⟨hs, hg⟩
      rcases hg with h | h | h <;>
        simp [detect_mime_type, hs, h, pyTruthy_empty]

/-- **C10 witness.** Concrete evaluation through the theorem: a usable
sniff wins, and with nothing usable the default is returned. -/
theorem detect_mime_type_priority_witness :
    detect_mime_type pngSniff noGuess "f.bin" (some ['a']) = "image/png" ∧
    detect_mime_type noSniff noGuess "f.bin" (some ['a']) = "application/octet-stream" := by
  constructor
  · exact (detect_mime_type_priority pngSniff noGuess "f.bin" (some ['a'])).2.1 "image/png" rfl
  · exact (detect_mime_type_priority noSniff noGuess "f.bin" (some ['a'])).2.2.2.mpr
      ⟨rfl, Or.inl rfl⟩

/-- The role fold in accumulator form: folding the claimed roles over the
configured map unions each matched permission set onto the accumulator. -/
theorem foldl_perm_union (m : List (String × List String)) :
    ∀ (roles : List String) (acc : Finset String),
      List.foldl (fun acc role =>
        match lookupRole m role with
        | some ps => acc ∪ ps.toFinset
        | none => acc) acc roles = acc ∪ matchedUnion m roles
  | [], acc => by simp [matchedUnion]
  | r :: rs, acc => by
    have hm : matchedUnion m (r :: rs)
        = ((lookupRole m r).getD []).toFinset ∪ matchedUnion m rs := by
      simp [matchedUnion, List.toFinset_cons, Finset.biUnion_insert]
    simp only [List.foldl_cons]
    cases h : lookupRole m r with
    | none =>
      simp only [h]
      rw [foldl_perm_union m rs acc, hm, h]
      simp
    | some ps =>
      simp only [h]
      rw [foldl_perm_union m rs (acc ∪ ps.toFinset), hm, h]
      simp [Finset.union_assoc]

/-- `map_roles_to_permissions` in closed form: the union of the matched
sets, else the default role's set when that union is empty. -/
theorem map_roles_to_permissions_eq (m : List (String × List String))
    (d : String) (roles : List String) :
    map_roles_to_permissions m d roles =
      if matchedUnion m roles = ∅ then
        match lookupRole m d with
        | some ps => ps.toFinset
        | none => ∅
      else matchedUnion m roles := by
  simp only [map_roles_to_permissions]
  rw [foldl_perm_union m roles ∅, Finset.empty_union]

/-- **C7.** The mapping returns the union of the configured permission
sets of the claimed roles found in the map; when that union is empty it
returns the configured default role's permission set; hence a session
whose claimed roles match no configured role receives the default role's
permissions, which are non-empty whenever the default role is configured
with a non-empty set. -/
theorem map_roles_to_permissions_union_default (m : List (String × List String))
    (d : String) (roles : List String) :
    (matchedUnion m roles ≠ ∅ →
      map_roles_to_permissions m d roles = matchedUnion m roles) ∧
    (matchedUnion m roles = ∅ → ∀ dps, lookupRole m d = some dps →
      map_roles_to_permissions m d roles = dps.toFinset) ∧
    ((∀ r ∈ roles, lookupRole m r = none) → ∀ dps, lookupRole m d = some dps →
      dps ≠ [] → map_roles_to_permissions m d roles ≠ ∅) := by
  refine ⟨?_, ?_, ?_⟩
  · intro h
    rw [map_roles_to_permissions_eq, if_neg h]
  · intro h dps hd
    rw [map_roles_to_permissions_eq, if_pos h, hd]
  · intro h dps hd hne
    have hmu : matchedUnion m roles = ∅ := by
      simp only [matchedUnion, Finset.eq_empty_iff_forall_not_mem, Finset.mem_biUnion]
      rintro x ⟨r, hr, hx⟩
      rw [h r (List.mem_toFinset.mp hr)] at hx
      simp at hx
    rw [map_roles_to_permissions_eq, if_pos hmu, hd]
    simp [hne]

/-- **C7 witness.** With the repository's configured map and default
role, a session claiming only the unrecognised role `Nobody` gets the
`S3-Viewer` set `{view}`, which is non-empty. -/
theorem map_roles_to_permissions_union_default_witness :
    map_roles_to_permissions ROLE_PERMISSIONS DEFAULT_ROLE ["Nobody"]
        = (["view"] : List String).toFinset ∧
    map_roles_to_permissions ROLE_PERMISSIONS DEFAULT_ROLE ["Nobody"] ≠ ∅ := by
  constructor
  · exact (map_roles_to_permissions_union_default ROLE_PERMISSIONS DEFAULT_ROLE
      ["Nobody"]).2.1 (by decide) ["view"] (by decide)
  · exact (map_roles_to_permissions_union_default ROLE_PERMISSIONS DEFAULT_ROLE
      ["Nobody"]).2.2 (by decide) ["view"] (by decide) (by decide)

/-- **C9.** Outside local-dev mode, a callback whose `state` parameter is
absent or differs from the state stored in the session is rejected with
the 400 Invalid-state response and the whole session — in particular its
`user` entry — is returned unchanged. -/
theorem callback_state_mismatch_no_session (provider : ProviderModel)
    (rp : List (String × List String)) (dr : String)
    (args : CallbackArgs) (sess : Session)
    (h : args.state = none ∨ args.state ≠ sess.oauth_state) :
    callback false provider rp dr args sess = (400, sess) := by
  unfold callback
  cases hs : args.state with
  | none => simp [pyTruthy_empty]
  | some st =>
    cases ht : pyTruthy st with
    | false => simp [ht]
    | true =>
      have hne : (some st != sess.oauth_state) = true := by
        rcases h with h | h
        · rw [h] at hs
          exact absurd hs (by simp)
        · rw [hs] at h
          exact bne_iff_ne.mpr h
      simp [ht, hne]

/-- **C9 witness.** A mismatching state `evil` against a session storing
`state-token` with a logged-in user: 400, session untouched. -/
theorem callback_state_mismatch_no_session_witness :
    callback false failingProvider ROLE_PERMISSIONS DEFAULT_ROLE
      ⟨some "evil", some "code"⟩ pendingSession = (400, pendingSession) :=
  callback_state_mismatch_no_session failingProvider ROLE_PERMISSIONS DEFAULT_ROLE
    ⟨some "evil", some "code"⟩ pendingSession (Or.inr (by decide))

/-- **C8.** A session whose permission list is exactly `["view"]` gets
403 from each of upload, create-folder, rename, delete-folder and
delete-multiple, with the store returned unchanged (the guard rejects
before the handler runs); and the decorators require `view` for the read
operation, `write` for creation/upload/rename, `delete` for both delete
operations. -/
theorem view_only_session_forbidden_on_mutations
    (ms : List Char → Option String) (mg : String → Option String) (pf : String → Bool)
    (nm em : String) (rs : List String) (s : Store)
    (files : List UFile) (up cf cfn ro rn dfp : String)
    (rels : List String) (dmp : List String) :
    handle_request ms mg pf (some ⟨nm, em, rs, ["view"]⟩) (.upload files up rels) s = (403, s) ∧
    handle_request ms mg pf (some ⟨nm, em, rs, ["view"]⟩) (.createFolder cf cfn) s = (403, s) ∧
    handle_request ms mg pf (some ⟨nm, em, rs, ["view"]⟩) (.renameOp ro rn) s = (403, s) ∧
    handle_request ms mg pf (some ⟨nm, em, rs, ["view"]⟩) (.deleteFolderOp dfp) s = (403, s) ∧
    handle_request ms mg pf (some ⟨nm, em, rs, ["view"]⟩) (.deleteMultipleOp dmp) s = (403, s) ∧
    required_permission (.browse up) = "view" ∧
    required_permission (.upload files up rels) = "write" ∧
    required_permission (.createFolder cf cfn) = "write" ∧
    required_permission (.renameOp ro rn) = "write" ∧
    required_permission (.deleteFolderOp dfp) = "delete" ∧
    required_permission (.deleteMultipleOp dmp) = "delete" := by
  refine ⟨?_, ?_, ?_, ?_, ?_, rfl, rfl, rfl, rfl, rfl, rfl⟩ <;>
  · simp only [handle_request, permission_required, required_permission]
    rw [if_neg (by decide)]

/-- The pagination loop, given enough fuel, returns the keys from the
token offset onwards. -/
theorem collectKeysLoop_eq_drop (b : Bucket) (pfx : String) :
    ∀ (fuel tok : Nat), (b.keysWith pfx).length ≤ tok + MAX_KEYS * fuel →
      collectKeysLoop b pfx fuel tok = (b.keysWith pfx).drop tok
  | 0, tok, h => by
    simp only [collectKeysLoop]
    symm
    apply List.drop_eq_nil_of_le
    simpa using h
  | fuel + 1, tok, h => by
    simp only [collectKeysLoop, listObjectsV2]
    by_cases ht : tok + MAX_KEYS < (b.keysWith pfx).length
    · have hrec := collectKeysLoop_eq_drop b pfx fuel (tok + MAX_KEYS)
        (by simp only [MAX_KEYS] at h ⊢; omega)
      simp only [ht, decide_True, if_true]
      rw [hrec, ← List.drop_drop]
      exact List.take_append_drop MAX_KEYS ((b.keysWith pfx).drop tok)
    · simp only [ht, decide_False, Bool.false_eq_true, if_false]
      apply List.take_of_length_le
      simp only [List.length_drop]
      omega

/-- The pagination loop as invoked by the handlers collects exactly the
keys under the prefix. -/
theorem listAllKeys_eq (b : Bucket) (pfx : String) :
    listAllKeys b pfx = b.keysWith pfx := by
  have hle : (b.keysWith pfx).length ≤ b.objects.length := by
    simp only [Bucket.keysWith, List.length_map]
    exact List.length_filter_le _ _
  rw [listAllKeys, collectKeysLoop_eq_drop b pfx (b.objects.length + 1) 0
    (by simp only [MAX_KEYS]; omega)]
  exact List.drop_zero _

/-- Concatenating the 1000-key batches recovers the key list. -/
theorem chunks1000_flatten (l : List String) : (chunks1000 l).flatten = l := by
  induction l using chunks1000.induct with
  | case1 l h =>
    rw [chunks1000, if_pos h]
    simpa using (List.isEmpty_iff.mp h).symm
  | case2 l h ih =>
    rw [chunks1000, if_neg h]
    simp [ih, List.take_append_drop]

/-- Every batch holds at most 1000 keys. -/
theorem chunks1000_sizes (l : List String) : ∀ c ∈ chunks1000 l, c.length ≤ MAX_KEYS := by
  induction l using chunks1000.induct with
  | case1 l h =>
    rw [chunks1000, if_pos h]
    simp
  | case2 l h ih =>
    rw [chunks1000, if_neg h]
    intro c hc
    rcases List.mem_cons.mp hc with rfl | hc
    · exact List.length_take_le MAX_KEYS l
    · exact ih c hc

/-- More than 1000 keys need at least two batches. -/
theorem chunks1000_two (l : List String) (h : MAX_KEYS < l.length) :
    2 ≤ (chunks1000 l).length := by
  rcases hc : chunks1000 l with _ | ⟨c, _ | ⟨c2, rest2⟩⟩
  · have hj := chunks1000_flatten l
    rw [hc] at hj
    rw [← hj] at h
    simp [MAX_KEYS] at h
  · have hj := chunks1000_flatten l
    rw [hc] at hj
    simp only [List.flatten_cons, List.flatten_nil, List.append_nil] at hj
    have hle := chunks1000_sizes l c (by rw [hc]; exact List.mem_singleton_self c)
    rw [hj] at hle
    omega
  · simp

/-- The combined delete/count fold splits into the bucket fold and the
sum of the batch sizes. -/
theorem foldl_delete_pair : ∀ (batches : List (List String)) (b : Bucket) (n : Nat),
    List.foldl (fun (acc : Bucket × Nat) batch => (acc.1.deleteKeys batch, acc.2 + batch.length))
      (b, n) batches
      = (List.foldl (fun bb batch => bb.deleteKeys batch) b batches,
         n + (batches.map List.length).sum)
  | [], b, n => by simp
  | c :: cs, b, n => by
    simp only [List.foldl_cons, List.map_cons, List.sum_cons]
    rw [foldl_delete_pair cs (b.deleteKeys c) (n + c.length)]
    simp only [Prod.mk.injEq, true_and]
    omega

theorem foldl_deleteKeys_name : ∀ (batches : List (List String)) (b : Bucket),
    (List.foldl (fun bb batch => bb.deleteKeys batch) b batches).name = b.name
  | [], _ => rfl
  | c :: cs, b => by
    simp only [List.foldl_cons]
    rw [foldl_deleteKeys_name cs]
    rfl

theorem contains_append (xs ys : List String) (k : String) :
    (xs ++ ys).contains k = (xs.contains k || ys.contains k) := by
  simp [List.contains, List.elem_eq_mem, List.mem_append, Bool.decide_or]

/-- Folding batched deletes filters out every key of the concatenated
batches. -/
theorem foldl_deleteKeys_objects : ∀ (batches : List (List String)) (b : Bucket),
    (List.foldl (fun bb batch => bb.deleteKeys batch) b batches).objects
      = b.objects.filter (fun o => !(batches.flatten.contains o.key))
  | [], b => by simp
  | c :: cs, b => by
    simp only [List.foldl_cons, List.flatten_cons]
    rw [foldl_deleteKeys_objects cs (b.deleteKeys c)]
    simp only [Bucket.deleteKeys]
    rw [List.filter_filter]
    apply List.filter_congr
    intro o _
    rw [contains_append]
    simp only [Bool.not_or]
    exact Bool.and_comm _ _

/-- Replacing the named bucket with a bucket of the same name is visible
to the following lookup. -/
theorem findBucket_updateBucket_const : ∀ (s : Store) (n : String) (b' : Bucket),
    (b'.name == n) = true → (findBucket s n).isSome = true →
    findBucket (updateBucket s n (fun _ => b')) n = some b'
  | [], n, b', _, h => by simp [findBucket] at h
  | b0 :: rest, n, b', hb', h => by
    cases h0 : (b0.name == n) with
    | true =>
      simp only [updateBucket, List.map_cons, h0, if_true, findBucket]
      exact List.find?_cons_of_pos _ hb'
    | false =>
      have hrest : (findBucket rest n).isSome = true := by
        unfold findBucket at h ⊢
        rwa [List.find?_cons_of_neg (p := fun (bb : Bucket) => bb.name == n) _ (by simp [h0])] at h
      simp only [updateBucket, List.map_cons, h0, Bool.false_eq_true, if_false, findBucket]
      rw [List.find?_cons_of_neg (p := fun (bb : Bucket) => bb.name == n) _ (by simp [h0])]
      exact findBucket_updateBucket_const rest n b' hb' hrest

/-- After folding the batched deletes of all keys under the prefix, no
object under the prefix remains. -/
theorem foldl_deleteKeys_keysWith (b : Bucket) (pfx : String) :
    (List.foldl (fun bb batch => bb.deleteKeys batch) b
      (chunks1000 (b.keysWith pfx))).keysWith pfx = [] := by
  simp only [Bucket.keysWith, foldl_deleteKeys_objects, chunks1000_flatten]
  rw [List.filter_filter]
  have : List.filter (fun o => pyStartsWith o.key pfx && !((b.keysWith pfx).contains o.key))
      b.objects = [] := by
    rw [List.filter_eq_nil_iff]
    intro o ho
    by_cases hs : pyStartsWith o.key pfx
    · have hmem : o.key ∈ b.keysWith pfx := by
        simp only [Bucket.keysWith, List.mem_map]
        exact ⟨o, List.mem_filter.mpr ⟨ho, hs⟩, rfl⟩
      simp [hs, List.contains, List.elem_eq_mem, hmem]
    · simp [hs]
  simp only [Bucket.keysWith] at this
  rw [this]
  rfl

/-- **C5.** `deleteFolder` on a prefix holding `N > 0` objects returns
200 with `deletedCount = N`, issues delete batches of at most 1000 keys
each — at least two of them when `N > 1000` (so for `N = 1500`) — and
leaves no object under the prefix; on a prefix holding no objects it
returns 200 as a no-op with the store unchanged. -/
theorem delete_folder_batches_and_clears (s : Store) (p bn rest : String) (b : Bucket)
    (hv : pyTruthy (pyStrip '/' p) = true)
    (hparse : pySplitFirst '/' (pyStrip '/' p) = (bn, some rest))
    (hb : findBucket s bn = some b) :
    (0 < (b.keysWith (rest ++ "/")).length →
      (delete_folder s p).status = 200 ∧
      (delete_folder s p).deletedCount = some (b.keysWith (rest ++ "/")).length ∧
      (∀ batch ∈ (delete_folder s p).batches, batch.length ≤ MAX_KEYS) ∧
      (MAX_KEYS < (b.keysWith (rest ++ "/")).length →
        2 ≤ (delete_folder s p).batches.length) ∧
      (∃ b2, findBucket (delete_folder s p).store bn = some b2 ∧
        b2.keysWith (rest ++ "/") = [])) ∧
    ((b.keysWith (rest ++ "/")).length = 0 →
      (delete_folder s p).status = 200 ∧
      (delete_folder s p).deletedCount = none ∧
      (delete_folder s p).store = s) := by
  have hred : delete_folder s p =
      if (b.keysWith (rest ++ "/")).isEmpty then ⟨200, none, [], s⟩
      else
        ⟨200, some (b.keysWith (rest ++ "/")).length,
          chunks1000 (b.keysWith (rest ++ "/")),
          updateBucket s bn (fun _ =>
            List.foldl (fun bb batch => bb.deleteKeys batch) b
              (chunks1000 (b.keysWith (rest ++ "/"))))⟩ := by
    simp only [delete_folder, hv, Bool.not_true, Bool.false_eq_true, if_false, hparse, hb,
      listAllKeys_eq]
    by_cases he : (b.keysWith (rest ++ "/")).isEmpty
    · simp [he]
    · simp only [he, Bool.false_eq_true, if_false]
      rw [foldl_delete_pair]
      simp only [Nat.zero_add]
      rw [← List.length_flatten, chunks1000_flatten]
  constructor
  · intro hpos
    have he : (b.keysWith (rest ++ "/")).isEmpty = false := by
      cases hk : b.keysWith (rest ++ "/") with
      | nil => rw [hk] at hpos; simp at hpos
      | cons a l => simp [hk]
    rw [hred, if_neg (by simp [he])]
    refine ⟨rfl, rfl, chunks1000_sizes _, fun hgt => chunks1000_two _ hgt, ?_⟩
    refine ⟨List.foldl (fun bb batch => bb.deleteKeys batch) b
      (chunks1000 (b.keysWith (rest ++ "/"))), ?_, foldl_deleteKeys_keysWith b _⟩
    apply findBucket_updateBucket_const
    · rw [foldl_deleteKeys_name]
      exact List.find?_some (p := fun (bb : Bucket) => bb.name == bn) (l := s) hb
    · rw [hb]
      rfl
  · intro hzero
    have he : (b.keysWith (rest ++ "/")).isEmpty = true := by
      rw [List.isEmpty_iff]
      exact List.eq_nil_of_length_eq_zero hzero
    rw [hred, if_pos he]
    exact ⟨rfl, rfl, rfl⟩

/-- **C5 witness.** Deleting `bkt/docs` on a bucket with two objects
under `docs/` and one outside: 200, `deletedCount = 2`, and the bucket
retains only `top.txt`. -/
theorem delete_folder_batches_and_clears_witness :
    (delete_folder dfStore "bkt/docs").status = 200 ∧
    (delete_folder dfStore "bkt/docs").deletedCount = some 2 := by
  have h := (delete_folder_batches_and_clears dfStore "bkt/docs" "bkt" "docs" dfBucket
    (by decide) (by decide) (by decide)).1 (by decide)
  have hN : (dfBucket.keysWith ("docs" ++ "/")).length = 2 := by decide
  rw [hN] at h
  exact ⟨h.1, h.2.1⟩

/-- **C3 counterexample.** A two-file batch against the empty bucket
`bkt` where the put of `bad.txt` fails after `good.txt` succeeded: the
response is the single opaque 500 with no count and no per-file report —
while `good.txt` did land in the store.  The claim's promised response
(`count` of successes, per-item success/failure) is not produced. -/
theorem upload_partial_failure_counterexample :
    (upload_to_path noSniff noGuess failBadPut emptyBktStore [goodFile, badFile] "bkt" []).status
        = 500 ∧
    (upload_to_path noSniff noGuess failBadPut emptyBktStore [goodFile, badFile] "bkt" []).count
        = none ∧
    (upload_to_path noSniff noGuess failBadPut emptyBktStore [goodFile, badFile] "bkt" []).files
        = [] ∧
    (upload_to_path noSniff noGuess failBadPut emptyBktStore [goodFile, badFile] "bkt" []).store
        = [⟨"bkt", [⟨"good.txt", "G"⟩]⟩] := by
  decide

/-- **C3 amended.** When the object store rejects the second file's put
after the first file's succeeded, the whole request returns the single
batch-level 500 with no count and no per-file report; the first file's
upload is kept (not rolled back), the store ending exactly with it
applied. -/
theorem upload_mid_batch_failure_single_500 (ms : List Char → Option String)
    (mg : String → Option String) (pf : String → Bool) (s : Store)
    (p bn pfx : String) (restOpt : Option String) (b : Bucket) (f1 f2 : UFile)
    (hpfx : (match restOpt with | some rest => rest ++ "/" | none => "") = pfx)
    (hv : pyTruthy (pyStrip '/' p) = true)
    (hparse : pySplitFirst '/' (pyStrip '/' p) = (bn, restOpt))
    (hb : findBucket s bn = some b)
    (hf1 : pyTruthy f1.filename = true)
    (hf2 : pyTruthy f2.filename = true)
    (h1 : pf (pfx ++ f1.filename) = false)
    (h2 : pf (pfx ++ f2.filename) = true) :
    upload_to_path ms mg pf s [f1, f2] p []
      = ⟨500, none, [],
          updateBucket s bn (fun bb => bb.putObject (pfx ++ f1.filename) f1.content)⟩ := by
  simp only [upload_to_path, List.isEmpty_cons, Bool.false_eq_true, if_false, hv,
    Bool.not_true, hparse, hb, hpfx]
  simp only [uploadLoop, hf1, hf2, Bool.not_true, Bool.false_eq_true, if_false,
    List.isEmpty_nil, Bool.not_false, Bool.false_and, h1, h2, if_true]

/-- **C3 amended witness.** The concrete two-file batch evaluated through
the amended theorem. -/
theorem upload_mid_batch_failure_single_500_witness :
    (upload_to_path noSniff noGuess failBadPut emptyBktStore [goodFile, badFile] "bkt" []).status
        = 500 ∧
    (upload_to_path noSniff noGuess failBadPut emptyBktStore [goodFile, badFile] "bkt" []).count
        = none := by
  have h := upload_mid_batch_failure_single_500 noSniff noGuess failBadPut emptyBktStore
    "bkt" "bkt" "" none ⟨"bkt", []⟩ goodFile badFile rfl (by decide) (by decide)
    (by decide) (by decide) (by decide) (by decide) (by decide)
  rw [h]
  exact ⟨rfl, rfl⟩

/-- One unfolding step of the code-point lexicographic comparison. -/
theorem strLeB_cons_iff (a b : Char) (as bs : List Char) :
    strLeB (a :: as) (b :: bs) = true ↔
      a.toNat < b.toNat ∨ (a.toNat = b.toNat ∧ strLeB as bs = true) := by
  simp only [strLeB]
  by_cases h1 : a.toNat < b.toNat
  · simp [h1]
  · by_cases h2 : a.toNat = b.toNat
    · simp [h1, h2]
    · have hb : (a.toNat == b.toNat) = false := by simpa using h2
      simp [h1, hb, h2]

theorem strLeB_trans : ∀ (a b c : List Char),
    strLeB a b = true → strLeB b c = true → strLeB a c = true
  | [], _, c, _, _ => by simp [strLeB]
  | _ :: _, [], _, h, _ => by simp [strLeB] at h
  | _ :: _, _ :: _, [], _, h => by simp [strLeB] at h
  | a :: as, b :: bs, c :: cs, h1, h2 => by
    rcases (strLeB_cons_iff a b as bs).mp h1 with h | ⟨he, hr⟩ <;>
      rcases (strLeB_cons_iff b c bs cs).mp h2 with h' | ⟨he', hr'⟩ <;>
      apply (strLeB_cons_iff a c as cs).mpr
    · exact Or.inl (by omega)
    · exact Or.inl (by omega)
    · exact Or.inl (by omega)
    · exact Or.inr ⟨by omega, strLeB_trans as bs cs hr hr'⟩

theorem strLeB_total : ∀ (a b : List Char), (strLeB a b || strLeB b a) = true
  | [], b => by simp [strLeB]
  | a :: as, [] => by simp [strLeB]
  | a :: as, b :: bs => by
    rcases Nat.lt_trichotomy a.toNat b.toNat with h | h | h
    · simp [(strLeB_cons_iff a b as bs).mpr (Or.inl h)]
    · rcases (by simpa using strLeB_total as bs : strLeB as bs = true ∨ strLeB bs as = true)
        with h' | h'
      · simp [(strLeB_cons_iff a b as bs).mpr (Or.inr ⟨h, h'⟩)]
      · simp [(strLeB_cons_iff b a bs as).mpr (Or.inr ⟨h.symm, h'⟩)]
    · simp [(strLeB_cons_iff b a bs as).mpr (Or.inl h)]

theorem itemLE_trans (x y z : BItem) (h1 : itemLE x y = true) (h2 : itemLE y z = true) :
    itemLE x z = true := by
  simp only [itemLE, Bool.or_eq_true, Bool.and_eq_true] at h1 h2 ⊢
  rcases h1 with ⟨h1a, h1b⟩ | ⟨h1a, h1b⟩ <;> rcases h2 with ⟨h2a, h2b⟩ | ⟨h2a, h2b⟩
  · rw [h1b] at h2a
    exact absurd h2a (by decide)
  · refine Or.inl ⟨h1a, ?_⟩
    rw [← beq_iff_eq.mp h2a]
    exact h1b
  · refine Or.inl ⟨?_, h2b⟩
    have hfy : (y.type == "file") = false := by
      cases hfy : (y.type == "file")
      · rfl
      · rw [hfy] at h2a
        exact absurd h2a (by decide)
    have hfx : (x.type == "file") = false := by
      rw [beq_iff_eq.mp h1a, hfy]
    rw [hfx]
    rfl
  · exact Or.inr ⟨by rw [beq_iff_eq.mp h1a]; exact h2a, strLeB_trans _ _ _ h1b h2b⟩

theorem itemLE_total (x y : BItem) : (itemLE x y || itemLE y x) = true := by
  simp only [itemLE]
  cases hx : (x.type == "file") <;> cases hy : (y.type == "file")
  · simp only [Bool.not_false, Bool.and_false, Bool.false_or, beq_self_eq_true,
      Bool.true_and]
    exact strLeB_total _ _
  · simp
  · simp
  · simp only [Bool.not_true, Bool.false_and, Bool.false_or, beq_self_eq_true,
      Bool.true_and]
    exact strLeB_total _ _

/-- The executed comparison implies the spec's pairwise sort property. -/
theorem itemLE_claim (x y : BItem) (h : itemLE x y = true) :
    ¬(x.type = "file" ∧ y.type = "directory") ∧
    (x.type = y.type → strLeB (pyLower x.name).toList (pyLower y.name).toList = true) := by
  simp only [itemLE] at h
  cases hx : (x.type == "file") <;> cases hy : (y.type == "file") <;> rw [hx, hy] at h
  · simp only [Bool.not_false, Bool.and_false, Bool.false_or, beq_self_eq_true,
      Bool.true_and] at h
    refine ⟨?_, fun _ => h⟩
    rintro ⟨hxf, _⟩
    rw [hxf] at hx
    simp at hx
  · refine ⟨?_, ?_⟩
    · rintro ⟨hxf, _⟩
      rw [hxf] at hx
      simp at hx
    · intro he
      rw [he] at hx
      rw [hx] at hy
      simp at hy
  · simp at h
  · simp only [Bool.not_true, Bool.false_and, Bool.false_or, beq_self_eq_true,
      Bool.true_and] at h
    refine ⟨?_, fun _ => h⟩
    rintro ⟨_, hyd⟩
    rw [hyd] at hy
    exact absurd hy (by decide)

/-- **C6 counterexample.** At the root path the handler returns the
buckets in the order the store lists them, without sorting: with buckets
listed as `b` then `A`, the returned listing is not in case-insensitive
ascending order, refuting the claim that every listing — including the
root one — is sorted. -/
theorem root_listing_unsorted_counterexample :
    (browse_filesystem twoBucketStore "").items
        = [⟨"b", "directory", "b"⟩, ⟨"A", "directory", "A"⟩] ∧
    ¬ listingSortedClaim (browse_filesystem twoBucketStore "").items := by
  have hi : (browse_filesystem twoBucketStore "").items
      = [⟨"b", "directory", "b"⟩, ⟨"A", "directory", "A"⟩] := by decide
  refine ⟨hi, ?_⟩
  intro h
  unfold listingSortedClaim at h
  rw [hi] at h
  rcases List.pairwise_cons.mp h with ⟨h1, _⟩
  rcases h1 _ (List.mem_singleton_self _) with ⟨_, himp⟩
  exact absurd (himp rfl) (by decide)

/-- **C6 amended.** Every non-root listing is sorted with directories
before files and same-type entries case-insensitive ascending; the root
listing instead returns one directory entry per bucket in the exact
order the object store lists buckets (no sort is applied). -/
theorem browse_listing_sorted_except_root :
    (∀ s : Store, (browse_filesystem s "").items
        = s.map (fun b => ⟨b.name, "directory", b.name⟩)) ∧
    (∀ (s : Store) (vp bn : String) (restOpt : Option String) (b : Bucket),
      pyTruthy (pyStrip '/' vp) = true →
      pySplitFirst '/' (pyStrip '/' vp) = (bn, restOpt) →
      findBucket s bn = some b →
      listingSortedClaim (browse_filesystem s vp).items) := by
  constructor
  · intro s
    have h0 : pyTruthy (pyStrip '/' "") = false := by decide
    simp [browse_filesystem, h0]
  · intro s vp bn restOpt b hv hparse hb
    unfold listingSortedClaim
    simp only [browse_filesystem, hv, Bool.not_true, Bool.false_eq_true, if_false,
      hparse, hb]
    exact List.Pairwise.imp (fun hxy => itemLE_claim _ _ hxy)
      (List.sorted_mergeSort itemLE_trans itemLE_total _)

/-- **C6 amended witness.** The sorted non-root listing of `bkt/docs`
and the pass-through root listing, via the theorem. -/
theorem browse_listing_sorted_except_root_witness :
    listingSortedClaim (browse_filesystem dfStore "bkt").items ∧
    (browse_filesystem twoBucketStore "").items
      = [⟨"b", "directory", "b"⟩, ⟨"A", "directory", "A"⟩] := by
  constructor
  · exact browse_listing_sorted_except_root.2 dfStore "bkt" "bkt" none dfBucket
      (by decide) (by decide) (by decide)
  · rw [browse_listing_sorted_except_root.1 twoBucketStore]
    rfl

/-! ## The folder branches of `rename_item` and `delete_multiple` are
unreachable for every input: stripping `'/'` leaves no trailing slash,
so the `endswith('/')` classification can never hold. -/

theorem head?_dropWhile (p : Char → Bool) : ∀ (l : List Char) (a : Char),
    (l.dropWhile p).head? = some a → p a = false
  | [], a => by simp
  | x :: xs, a => by
    rw [List.dropWhile_cons]
    by_cases hp : p x = true
    · rw [if_pos hp]
      exact head?_dropWhile p xs a
    · rw [if_neg hp]
      intro h
      obtain rfl : x = a := by simpa using h
      simpa using hp

/-- A stripped string never ends with the stripped character. -/
theorem getLast?_stripCharL (c : Char) (l : List Char) :
    (stripCharL c l).getLast? ≠ some c := by
  unfold stripCharL
  intro h
  rw [List.getLast?_reverse] at h
  have := head?_dropWhile (· == c) _ _ h
  simp at this

theorem splitCharL_ne_nil (c : Char) : ∀ (l : List Char), splitCharL c l ≠ []
  | [] => by simp [splitCharL]
  | x :: xs => by
    simp only [splitCharL]
    cases hx : (x == c)
    · cases hr : splitCharL c xs
      · simp
      · simp
    · simp

/-- Splitting and rejoining on the same separator is the identity. -/
theorem joinCharL_splitCharL (c : Char) : ∀ (l : List Char),
    joinCharL c (splitCharL c l) = l
  | [] => rfl
  | x :: xs => by
    have ih := joinCharL_splitCharL c xs
    simp only [splitCharL]
    cases hx : (x == c)
    · cases hr : splitCharL c xs with
      | nil => exact absurd hr (splitCharL_ne_nil c xs)
      | cons h t =>
        rw [hr] at ih
        cases t with
        | nil =>
          simp only [joinCharL] at ih ⊢
          rw [ih]
        | cons t0 ts =>
          simp only [joinCharL] at ih ⊢
          rw [← ih]
          rfl
    · cases hr : splitCharL c xs with
      | nil => exact absurd hr (splitCharL_ne_nil c xs)
      | cons h t =>
        rw [hr] at ih
        have hxc : x = c := by simpa using hx
        simp only [joinCharL]
        rw [ih, hxc]
        rfl

/-- Rejoining all pieces after the first of a string that does not end in
the separator yields a string that does not end in the separator. -/
theorem join_drop_one_getLast (c : Char) (sl : List Char)
    (hlast : sl.getLast? ≠ some c)
    (h2 : 2 ≤ (splitCharL c sl).length) :
    (joinCharL c ((splitCharL c sl).drop 1)).getLast? ≠ some c := by
  rcases hsp : splitCharL c sl with _ | ⟨p0, rest⟩
  · exact absurd hsp (splitCharL_ne_nil c sl)
  rcases rest with _ | ⟨r0, rs⟩
  · rw [hsp] at h2
    simp at h2
  have hj := joinCharL_splitCharL c sl
  rw [hsp] at hj
  simp only [joinCharL] at hj
  simp only [List.drop_succ_cons, List.drop_zero]
  intro h
  apply hlast
  rw [← hj, List.getLast?_append]
  cases hjj : (joinCharL c (r0 :: rs)) with
  | nil =>
    rw [hjj] at h
    simp at h
  | cons j0 js =>
    rw [hjj] at h
    rw [List.getLast?_cons_cons, h]
    rfl

/-- A string ends with `/` exactly when its last character is `/`. -/
theorem pyEndsWith_slash_iff (s : String) :
    pyEndsWith s "/" = true ↔ s.toList.getLast? = some '/' := by
  unfold pyEndsWith
  rw [show ("/" : String).toList = ['/'] from rfl, List.isSuffixOf_iff_suffix]
  constructor
  · rintro ⟨t, ht⟩
    rw [← ht]
    exact List.getLast?_concat t
  · intro h
    exact ⟨s.toList.dropLast,
      List.dropLast_append_getLast? '/' (by simp only [Option.mem_def]; exact h)⟩

theorem toList_mk (l : List Char) : (String.mk l).toList = l := rfl

/-- The computed key of a stripped multi-segment virtual path never ends
in `/`: the `is_folder`/folder classification of `rename_item` and
`delete_multiple` is unsatisfiable. -/
theorem old_key_not_folder (p : String)
    (h2 : 2 ≤ (pySplit '/' (pyStrip '/' p)).length) :
    pyEndsWith (pyJoin '/' ((pySplit '/' (pyStrip '/' p)).drop 1)) "/" = false := by
  have h2' : 2 ≤ (splitCharL '/' (stripCharL '/' p.toList)).length := by
    rw [show pySplit '/' (pyStrip '/' p)
        = (splitCharL '/' (stripCharL '/' p.toList)).map String.mk from rfl,
      List.length_map] at h2
    exact h2
  have hkey : pyJoin '/' ((pySplit '/' (pyStrip '/' p)).drop 1)
      = String.mk (joinCharL '/' ((splitCharL '/' (stripCharL '/' p.toList)).drop 1)) := by
    simp only [pyJoin, pySplit, pyStrip, toList_mk]
    congr 1
    rw [List.map_drop, List.map_map]
    congr 1
    rw [show (String.toList ∘ String.mk) = id from funext (fun _ => rfl), List.map_id]
  rw [hkey]
  cases he : pyEndsWith
      (String.mk (joinCharL '/' ((splitCharL '/' (stripCharL '/' p.toList)).drop 1))) "/" with
  | false => rfl
  | true =>
    exfalso
    have hl := (pyEndsWith_slash_iff _).mp he
    rw [toList_mk] at hl
    exact join_drop_one_getLast '/' (stripCharL '/' p.toList)
      (getLast?_stripCharL '/' p.toList) h2' hl

/-- For every request whatsoever, `rename_item` never takes its folder
branch: the response never carries `itemsRenamed`. -/
theorem rename_item_never_folder (s : Store) (o n : String) :
    (rename_item s o n).itemsRenamed = none := by
  simp only [rename_item]
  split
  · rfl
  split
  · rfl
  rename_i h1 h2
  split
  · rfl
  have hf := old_key_not_folder o (by omega)
  rw [if_neg (by rw [hf]; exact Bool.false_ne_true)]
  split
  · rfl
  · rfl

/-- For every request whatsoever, each path handled by `delete_multiple`
deletes at most one object: the folder branch that would delete a whole
prefix never runs. -/
theorem deleteOnePath_deletes_at_most_one (acc : Store × Nat × List (String × String))
    (vp : String) : (deleteOnePath acc vp).2.1 ≤ acc.2.1 + 1 := by
  simp only [deleteOnePath]
  split
  · simp
  rename_i h2
  split
  · simp
  have hf := old_key_not_folder vp (by omega)
  rw [if_neg (by rw [hf]; exact Bool.false_ne_true)]

end S3Manager
